import Mathlib

/-!
Verification of the slideconvert image-conversion service (`src/app.py`).

The Python program is shallowly embedded: the network fetch
(`download_image`) is a parameter `fetch : String → Option Img`
(`none` models a raised fetch/decode exception), each renderer is a pure
Lean function that also returns the trace of URLs it attempted to fetch,
and the HTTP layer (`convert`) returns an explicit response value.
The background cleanup thread is modelled as a step function on the
cleanup queue and a file/buffer store, iterated over a list of wake times.
-/

namespace SlideConvert

/-- One pixel: an RGBA quadruple of 0–255 channel values.  For mode `L`
and `LA` images the convention is `r = g = b = ` the luminance channel. -/
structure Pix where
  r : Nat
  g : Nat
  b : Nat
  a : Nat
  deriving DecidableEq, Repr

/-- The PIL image modes the program distinguishes: `create_zip_from_images`
tests `image.mode in ('RGBA', 'LA')`; other fetched images pass through. -/
inductive PMode where
  | RGB
  | RGBA
  | L
  | LA
  deriving DecidableEq, Repr

/-- Whether a mode carries an alpha channel. -/
def PMode.hasAlpha : PMode → Bool
  | .RGBA => true
  | .LA => true
  | _ => false

/-- A decoded in-memory image (PIL `Image`): mode, natural pixel size,
and the flat pixel buffer. -/
structure Img where
  mode : PMode
  width : Nat
  height : Nat
  pixels : List Pix
  deriving DecidableEq, Repr

/-- The fetch environment standing for `download_image`: `none` models the
raised exception on network failure / bad status / undecodable body. -/
abbrev Fetch := String → Option Img

/-- PIL's JPEG encoder accepts only alpha-free modes; `image.save(…,
'JPEG')` raises for RGBA/LA images. -/
def jpegWritable : PMode → Bool
  | PMode.RGB => true
  | PMode.L => true
  | _ => false

/-! ## Document (PDF) Renderer — `create_pdf_from_images` -/

/-- One drawing event on the reportlab canvas: `draw img` is
`c.drawImage(temp_path, 0, 0, width=width, height=height)` for the image
saved to `temp_path`, and `pageBreak` is `c.showPage()`. -/
inductive PdfEvent where
  | draw (img : Img)
  | pageBreak
  deriving DecidableEq, Repr

/-- A finished PDF page: the page size in effect and the images painted
on it (each stretched to the full page). -/
structure PdfPage where
  size : Nat × Nat
  draws : List Img
  deriving DecidableEq, Repr

/-- The canvas contents when `c.save()` runs: the fixed page size passed
to `canvas.Canvas(pagesize=(width, height))` and the event stream. -/
structure PdfDoc where
  size : Nat × Nat
  events : List PdfEvent
  deriving DecidableEq, Repr

/-- The per-image loop of `create_pdf_from_images` (lines 109–131).
Processing the element with `rest` remaining corresponds to loop index
`i` with `i < len(images) - 1 ↔ rest ≠ []`.  On fetch success the image
is saved to a temp file as JPEG (line 118) — a save that raises for
alpha-carrying modes — and only then drawn and, unless this is the last
input position, `c.showPage()` run; a fetch failure, or the save
raising, is caught by the per-image `except`, which skips both the draw
and the page break and `continue`s.  Returns the event stream and the
fetch trace. -/
def pdfLoop (fetch : Fetch) : List String → List PdfEvent × List String
  | [] => ([], [])
  | u :: rest =>
    let r := pdfLoop fetch rest
    match fetch u with
    | none => (r.1, u :: r.2)
    | some img =>
      if jpegWritable img.mode then
        (PdfEvent.draw img :: ((if rest.isEmpty then [] else [PdfEvent.pageBreak]) ++ r.1),
          u :: r.2)
      else
        (r.1, u :: r.2)

/-- The image the document loop actually paints for a URL: it must both
fetch successfully and survive the JPEG temp-file save (alpha-carrying
modes raise there and are skipped). -/
def paintedImage (fetch : Fetch) (u : String) : Option Img :=
  match fetch u with
  | none => none
  | some img => if jpegWritable img.mode then some img else none

/-- reportlab pagination semantics: `showPage` closes the current page
(even if empty); `save` emits the final page only when something was
painted on it (`if len(self._code): self.showPage()`). `cur` is the
content of the page currently open. -/
def paginate (size : Nat × Nat) : List PdfEvent → List Img → List PdfPage
  | [], cur => if cur.isEmpty then [] else [⟨size, cur⟩]
  | PdfEvent.draw d :: rest, cur => paginate size rest (cur ++ [d])
  | PdfEvent.pageBreak :: rest, cur => ⟨size, cur⟩ :: paginate size rest []

/-- The pages of the finished document. -/
def PdfDoc.pages (doc : PdfDoc) : List PdfPage :=
  paginate doc.size doc.events []

/-- `create_pdf_from_images(images, title)` (lines 97–139): fetches
`images[0]` to fix the canvas page size, then runs the per-image loop and
saves.  A failure of that first fetch (or `images[0]` on an empty list)
propagates as a raised exception, modelled by `Except.error`.  Also
returns the trace of attempted fetches (the first image is fetched twice:
once for its dimensions and once inside the loop). -/
def create_pdf_from_images (fetch : Fetch) (images : List String) (_title : String) :
    Except String PdfDoc × List String :=
  match images with
  | [] => (Except.error "list index out of range", [])
  | u0 :: _ =>
    match fetch u0 with
    | none => (Except.error ("Failed to download image " ++ u0), [u0])
    | some first =>
      let r := pdfLoop fetch images
      (Except.ok ⟨(first.width, first.height), r.1⟩, u0 :: r.2)

/-- Spec-side event stream for the amended C5, consuming the
per-position painted outcomes (`none` at a position where nothing is
painted): each painted image is followed by a page break unless the
image sits at the last *input* position of the request. -/
def breaksExceptLastPos : List (Option Img) → List PdfEvent
  | [] => []
  | [o] => (o.map PdfEvent.draw).toList
  | o :: rest =>
    (match o with
      | none => []
      | some img => [PdfEvent.draw img, PdfEvent.pageBreak]) ++ breaksExceptLastPos rest

/-! ## Deck (PPT) Renderer — `create_ppt_from_images` -/

/-- The picture shape placed on a slide by `slide.shapes.add_picture`:
position and extent in EMU. -/
structure PicShape where
  left : Nat
  top : Nat
  cx : Nat
  cy : Nat
  deriving DecidableEq, Repr

/-- A slide of a deck: the layout index it was created from and the
single picture it would carry. -/
structure Slide where
  layout : Nat
  pic : PicShape
  deriving DecidableEq, Repr

/-- A deck as `prs.save(ppt_buffer)` would write it.  No value of this
type is ever produced: `create_ppt_from_images` fails before reaching
its loop on every call. -/
structure Deck where
  slides : List Slide
  deriving DecidableEq, Repr

/-- `create_ppt_from_images(images, title)` (lines 141–198): before the
loop, line 147 evaluates `prs.slide_layouts._sldLayouts.clear()`.
python-pptx's `SlideLayouts` proxy has no `_sldLayouts` attribute (its
collection attribute is `_sldLayoutIdLst`, following the same convention
as `Slides._sldIdLst`), so the attribute access raises `AttributeError`.
This happens outside the per-image `try`; the only enclosing handler
(lines 196–198) logs and re-raises, so every call fails before any image
is fetched, no slide is ever built, and `prs.save` never runs. -/
def create_ppt_from_images (_fetch : Fetch) (_images : List String) (_title : String) :
    Except String Deck × List String :=
  (Except.error "SlideLayouts object has no attribute _sldLayouts", [])

/-! ## Archive (ZIP) Renderer — `create_zip_from_images` -/

/-- Python `str.zfill`: left-pad with `'0'` to the given width. -/
def zfill (w : Nat) (s : String) : String :=
  if s.length < w then String.mk (List.replicate (w - s.length) '0') ++ s else s

/-- `f"slide_{str(i+1).zfill(3)}.jpg"` for loop index `i`. -/
def zipEntryName (i : Nat) : String :=
  "slide_" ++ zfill 3 (toString (i + 1)) ++ ".jpg"

/-- PIL paste blending of one channel against an L-mode mask value `m`:
`out = (src*m + dst*(255-m)) / 255`. -/
def blendChan (src dst m : Nat) : Nat :=
  (src * m + dst * (255 - m)) / 255

/-- Blend a source pixel over a destination pixel of the RGB canvas
using mask value `m`. -/
def pasteMask (dst src : Pix) (m : Nat) : Pix :=
  ⟨blendChan src.r dst.r m, blendChan src.g dst.g m, blendChan src.b dst.b m, 255⟩

/-- Lines 216–220: `Image.new('RGB', size, (255,255,255))` followed by
`rgb_image.paste(image, mask=…)`.  With a mask (the alpha band, RGBA
case) each pixel is alpha-blended over white; without a mask (LA case)
the source is converted to RGB — its alpha channel dropped — and fully
overwrites the white canvas. -/
def pasteOnWhite (img : Img) (useMask : Bool) : Img :=
  { mode := PMode.RGB, width := img.width, height := img.height,
    pixels := img.pixels.map (fun p =>
      if useMask then pasteMask ⟨255, 255, 255, 255⟩ p p.a else ⟨p.r, p.g, p.b, 255⟩) }

/-- Modelled from the spec: "any image carrying an alpha channel is
composited onto an opaque white background before encoding" — every
pixel alpha-blended over opaque white. -/
def compositeOnWhite (img : Img) : Img :=
  { mode := PMode.RGB, width := img.width, height := img.height,
    pixels := img.pixels.map (fun p => pasteMask ⟨255, 255, 255, 255⟩ p p.a) }

/-- One archive entry: `zip_file.writestr(filename, img_buffer.getvalue())`
of the image encoded by `image.save(img_buffer, 'JPEG', quality=95)`. -/
structure ZipEntry where
  name : String
  quality : Nat
  mode : PMode
  pixels : List Pix
  deriving DecidableEq, Repr

/-- The finished archive buffer. -/
structure ZipArchive where
  entries : List ZipEntry
  deriving DecidableEq, Repr

/-- The per-image loop of `create_zip_from_images` (lines 206–232), `i`
the loop index: fetch failure or an encoding exception is caught by the
per-item `except` and the loop continues with the next image. -/
def zipLoop (fetch : Fetch) : List String → Nat → List ZipEntry × List String
  | [], _ => ([], [])
  | u :: rest, i =>
    let r := zipLoop fetch rest (i + 1)
    match fetch u with
    | none => (r.1, u :: r.2)
    | some image =>
      let image2 := if image.mode = PMode.RGBA ∨ image.mode = PMode.LA
        then pasteOnWhite image (decide (image.mode = PMode.RGBA))
        else image
      if jpegWritable image2.mode then
        (⟨zipEntryName i, 95, image2.mode, image2.pixels⟩ :: r.1, u :: r.2)
      else
        (r.1, u :: r.2)

/-- The archive entry the loop writes for an image fetched at loop index
`i`: the mode normalization of lines 216–220 followed by the quality-95
JPEG encode. -/
def zipEntryOf (i : Nat) (image : Img) : ZipEntry :=
  let image2 := if image.mode = PMode.RGBA ∨ image.mode = PMode.LA
    then pasteOnWhite image (decide (image.mode = PMode.RGBA))
    else image
  ⟨zipEntryName i, 95, image2.mode, image2.pixels⟩

/-- `create_zip_from_images(images, title)` (lines 200–239). -/
def create_zip_from_images (fetch : Fetch) (images : List String) (_title : String) :
    Except String ZipArchive × List String :=
  let r := zipLoop fetch images 0
  (Except.ok ⟨r.1⟩, r.2)

/-! ## Conversion Orchestrator — `convert` -/

/-- The parsed JSON body; `none` fields model absent keys, whose
defaults `data.get(…)` supplies. -/
structure ConvRequest where
  images : Option (List String)
  title : Option String
  format : Option String
  deriving DecidableEq, Repr

/-- Python `str.lower()`, character-wise (the recognized formats are
plain ASCII). -/
def lowerStr (s : String) : String :=
  ⟨s.data.map Char.toLower⟩

/-- The artifact handed to `send_file`. -/
inductive Artifact where
  | pdf (d : PdfDoc)
  | ppt (d : Deck)
  | zip (z : ZipArchive)
  deriving DecidableEq, Repr

/-- The HTTP response of the `/convert` endpoint: a served file, or a
JSON body `{'error': msg}` with the given status code. -/
inductive HttpResp where
  | file (a : Artifact) (mimetype : String) (filename : String)
  | err (status : Nat) (msg : String)
  deriving DecidableEq, Repr

/-- `convert()` (lines 241–303): validation, dispatch on the lowercased
format, and the outer `except` that turns a renderer exception into a
500 response.  The second component is the trace of attempted image
fetches. -/
def convert (fetch : Fetch) (data : Option ConvRequest) : HttpResp × List String :=
  match data with
  | none => (HttpResp.err 400 "No JSON data provided", [])
  | some data =>
    let images := data.images.getD []
    let title := data.title.getD "Presentation"
    let format_type := lowerStr (data.format.getD "pdf")
    if images.isEmpty then
      (HttpResp.err 400 "No images provided", [])
    else if ¬(format_type = "pdf" ∨ format_type = "ppt" ∨ format_type = "zip") then
      (HttpResp.err 400 "Invalid format. Must be pdf, ppt, or zip", [])
    else if format_type = "pdf" then
      match create_pdf_from_images fetch images title with
      | (Except.ok d, tr) =>
        (HttpResp.file (Artifact.pdf d) "application/pdf" (title ++ ".pdf"), tr)
      | (Except.error e, tr) =>
        (HttpResp.err 500 ("Conversion failed: " ++ e), tr)
    else if format_type = "ppt" then
      match create_ppt_from_images fetch images title with
      | (Except.ok d, tr) =>
        (HttpResp.file (Artifact.ppt d)
          "application/vnd.openxmlformats-officedocument.presentationml.presentation"
          (title ++ ".pptx"), tr)
      | (Except.error e, tr) =>
        (HttpResp.err 500 ("Conversion failed: " ++ e), tr)
    else
      match create_zip_from_images fetch images title with
      | (Except.ok z, tr) =>
        (HttpResp.file (Artifact.zip z) "application/zip" (title ++ ".zip"), tr)
      | (Except.error e, tr) =>
        (HttpResp.err 500 ("Conversion failed: " ++ e), tr)

/-! ## Resource Ledger & Reclamation Sweeper — `schedule_cleanup`,
`cleanup_resources` -/

/-- The handle of an ephemeral resource tracked in `cleanup_queue`:
a temp-file path or an in-memory buffer (identified by a number). -/
inductive RHandle where
  | file (path : String)
  | buffer (id : Nat)
  deriving DecidableEq, Repr

/-- One entry of `cleanup_queue`: the handle and its `created` timestamp
(seconds). -/
structure CleanupItem where
  res : RHandle
  created : Nat
  deriving DecidableEq, Repr

/-- The state outside the queue acted on by a sweep: the set of existing
temp-file paths and the set of buffers whose `close()` has run. -/
structure Store where
  files : List String
  closed : List Nat
  deriving DecidableEq, Repr

/-- Failure environment for releases: whether `os.unlink(path)` succeeds
for a given path (a raised exception is caught, logged and ignored). -/
structure SweepEnv where
  unlinkOk : String → Bool

/-- `schedule_cleanup` (lines 71–79): append an entry stamped with the
current time. -/
def schedule_cleanup (q : List CleanupItem) (res : RHandle) (now : Nat) : List CleanupItem :=
  q ++ [⟨res, now⟩]

/-- Releasing one stale item (lines 41–47): delete the file if it still
exists (a failed `os.unlink` leaves it), or close the buffer. -/
def releaseItem (env : SweepEnv) (st : Store) (it : CleanupItem) : Store :=
  match it.res with
  | RHandle.file p =>
    if p ∈ st.files then
      (if env.unlinkOk p then { st with files := st.files.erase p } else st)
    else st
  | RHandle.buffer b => { st with closed := b :: st.closed }

/-- One iteration of the `cleanup_resources` loop body at wake time
`now`: items with `current_time - item['created'] > 300` are released
(success or not) and removed from the queue — the `finally:` block
appends every stale item to `items_to_remove` regardless of release
outcome. -/
def sweepOnce (env : SweepEnv) (now : Nat) :
    List CleanupItem × Store → List CleanupItem × Store
  | (q, st) =>
    let old := q.filter (fun it => decide (300 < now - it.created))
    let st2 := old.foldl (releaseItem env) st
    let q2 := q.filter (fun it => !decide (300 < now - it.created))
    (q2, st2)

/-- A handle's storage has been reclaimed in a store state: the temp
file is gone from disk (whenever `os.unlink` succeeds on it), or the
buffer's `close()` has run. -/
def releasedIn (env : SweepEnv) (res : RHandle) (st : Store) : Prop :=
  match res with
  | RHandle.file p => env.unlinkOk p = true → p ∉ st.files
  | RHandle.buffer b => b ∈ st.closed

/-- The sweeper thread observed at a list of wake times (`time.sleep(60)`
between iterations). -/
def runSweeps (env : SweepEnv) : List Nat → List CleanupItem × Store → List CleanupItem × Store
  | [], s => s
  | w :: ws, s => runSweeps env ws (sweepOnce env w s)

/-! ## Concrete test fixtures -/

/-- A 5×7 RGB image. -/
def rgbImg : Img := ⟨PMode.RGB, 5, 7, [⟨1, 2, 3, 255⟩]⟩

/-- A 9×4 RGB image. -/
def rgbImg2 : Img := ⟨PMode.RGB, 9, 4, [⟨9, 9, 9, 255⟩]⟩

/-- A 1×1 LA image that is fully transparent with luminance 0. -/
def laImg : Img := ⟨PMode.LA, 1, 1, [⟨0, 0, 0, 0⟩]⟩

/-- Environment where only `"a"` and `"b"` resolve. -/
def fetchAB : Fetch :=
  fun u => if u = "a" then some rgbImg else if u = "b" then some rgbImg2 else none

/-- Environment where every fetch fails. -/
def fetchNone : Fetch := fun _ => none

/-- Environment where every fetch returns `rgbImg`. -/
def fetchAll : Fetch := fun _ => some rgbImg

/-- Environment where every fetch returns the transparent LA image. -/
def fetchLA : Fetch := fun _ => some laImg

/-! ## Lemmas and claim theorems -/

/-- C1: the claim says a 'ppt' conversion yields one slide per
successfully fetched image.  In fact every ppt request fails before its
first fetch: line 147 accesses the nonexistent `_sldLayouts` attribute
of the `SlideLayouts` proxy, the `AttributeError` propagates through the
outer re-raising handler, and `convert` returns HTTP 500 — no deck is
ever saved, so its slide count never equals the number of fetched
images; here a one-image request whose fetch would succeed gets the 500
error with an empty fetch trace and no file response. -/
theorem c1_ppt_one_slide_per_image_fails :
    fetchAll "u" = some rgbImg ∧
    convert fetchAll (some ⟨some ["u"], none, some "ppt"⟩) =
      (HttpResp.err 500 ("Conversion failed: " ++
        "SlideLayouts object has no attribute _sldLayouts"), []) ∧
    ∀ (a : Artifact) (mt fn : String) (tr : List String),
      convert fetchAll (some ⟨some ["u"], none, some "ppt"⟩) ≠
        (HttpResp.file a mt fn, tr) := by
  refine ⟨rfl, rfl, ?_⟩
  intro a mt fn tr hcontra
  have : (HttpResp.err 500 ("Conversion failed: " ++
      "SlideLayouts object has no attribute _sldLayouts"), ([] : List String)) =
      (HttpResp.file a mt fn, tr) := hcontra
  simp at this

/-- C8: the claim says a 'ppt' request in which every fetch fails still
returns a structurally valid zero-slide deck as a success.  In fact the
renderer never reaches its loop: line 147 raises `AttributeError` first
(nonexistent `_sldLayouts` attribute), so even with every fetch failing
the renderer raises, `convert` answers HTTP 500, and no deck — zero
slide or otherwise — is returned. -/
theorem c8_ppt_all_fail_no_deck :
    (∀ u ∈ ["a", "b"], fetchNone u = none) ∧
    (create_ppt_from_images fetchNone ["a", "b"] "T").1 =
      Except.error "SlideLayouts object has no attribute _sldLayouts" ∧
    (∀ d : Deck, (create_ppt_from_images fetchNone ["a", "b"] "T").1 ≠ Except.ok d) ∧
    convert fetchNone (some ⟨some ["a", "b"], none, some "ppt"⟩) =
      (HttpResp.err 500 ("Conversion failed: " ++
        "SlideLayouts object has no attribute _sldLayouts"), []) := by
  refine ⟨fun _ _ => rfl, rfl, ?_, rfl⟩
  intro d hcontra
  have : (Except.error "SlideLayouts object has no attribute _sldLayouts" :
      Except String Deck) = Except.ok d := hcontra
  simp at this

/-- C3: a 'pdf' request whose first image fails to fetch makes
`create_pdf_from_images` raise before any page is painted; `convert`'s
outer handler turns this into an HTTP 500 with an `{'error': …}` body,
and no file response is produced. -/
theorem c3_pdf_first_fetch_failure_500 (fetch : Fetch) (req : ConvRequest)
    (u : String) (rest : List String)
    (himg : req.images = some (u :: rest))
    (hfmt : lowerStr (req.format.getD "pdf") = "pdf")
    (hfail : fetch u = none) :
    convert fetch (some req) =
      (HttpResp.err 500 ("Conversion failed: " ++ ("Failed to download image " ++ u)),
        [u]) ∧
    ∀ (a : Artifact) (mt fn : String) (tr : List String),
      convert fetch (some req) ≠ (HttpResp.file a mt fn, tr) := by
  have hmain : convert fetch (some req) =
      (HttpResp.err 500 ("Conversion failed: " ++ ("Failed to download image " ++ u)),
        [u]) := by
    simp [convert, himg, hfmt, create_pdf_from_images, hfail]
  exact ⟨hmain, fun a mt fn tr hcontra => by rw [hmain] at hcontra; exact absurd hcontra (by simp)⟩

/-- Witness for C3: first URL unreachable, `format:"pdf"`. -/
theorem c3_pdf_first_fetch_failure_500_witness :
    fetchNone "x" = none ∧
    convert fetchNone (some ⟨some ["x"], none, some "pdf"⟩) =
      (HttpResp.err 500 ("Conversion failed: " ++ ("Failed to download image " ++ "x")),
        ["x"]) :=
  ⟨rfl, (c3_pdf_first_fetch_failure_500 fetchNone ⟨some ["x"], none, some "pdf"⟩
    "x" [] rfl (by decide) rfl).1⟩

theorem paginate_size_mem (size : Nat × Nat) :
    ∀ (evs : List PdfEvent) (cur : List Img) (p : PdfPage),
      p ∈ paginate size evs cur → p.size = size := by
  intro evs
  induction evs with
  | nil =>
    intro cur p hp
    simp only [paginate] at hp
    rcases hcur : cur.isEmpty with _ | _ <;> rw [hcur] at hp <;> simp at hp
    rw [hp]
  | cons e rest ih =>
    intro cur p hp
    cases e with
    | draw d => exact ih (cur ++ [d]) p hp
    | pageBreak =>
      simp only [paginate, List.mem_cons] at hp
      rcases hp with hp | hp
      · rw [hp]
      · exact ih [] p hp

theorem paginate_pdfLoop_length (fetch : Fetch) (size : Nat × Nat) :
    ∀ images : List String,
      (paginate size (pdfLoop fetch images).1 []).length =
        (images.filter (fun u => (paintedImage fetch u).isSome)).length := by
  intro images
  induction images with
  | nil => rfl
  | cons u rest ih =>
    cases hfu : fetch u with
    | none =>
      have hskip : (pdfLoop fetch (u :: rest)).1 = (pdfLoop fetch rest).1 := by
        simp [pdfLoop, hfu]
      rw [hskip, ih]
      simp [List.filter_cons, paintedImage, hfu]
    | some img =>
      by_cases hw : jpegWritable img.mode = true
      · cases rest with
        | nil => simp [pdfLoop, hfu, hw, paginate, paintedImage]
        | cons v rest2 =>
          have hev : (pdfLoop fetch (u :: v :: rest2)).1 =
              PdfEvent.draw img :: PdfEvent.pageBreak ::
                (pdfLoop fetch (v :: rest2)).1 := by
            simp [pdfLoop, hfu, hw]
          rw [hev]
          simp only [paginate, List.nil_append, List.length_cons]
          rw [ih]
          simp [List.filter_cons, paintedImage, hfu, hw]
      · have hskip : (pdfLoop fetch (u :: rest)).1 = (pdfLoop fetch rest).1 := by
          simp [pdfLoop, hfu, hw]
        rw [hskip, ih]
        simp [List.filter_cons, paintedImage, hfu, hw]

/-- C4: when the first image of a 'pdf' request fetches successfully,
the canvas page size is fixed to that image's pixel dimensions, every
emitted page has that size, later fetch failures are skipped without a
page and without aborting, and the page count equals the number of
painted images — those that fetch successfully *and* survive the JPEG
temp-file save (alpha-carrying modes raise there and are skipped the
same way a fetch failure is). -/
theorem c4_pdf_page_geometry (fetch : Fetch) (u0 : String) (rest : List String)
    (title : String) (img0 : Img) (h0 : fetch u0 = some img0) :
    ∃ doc : PdfDoc,
      (create_pdf_from_images fetch (u0 :: rest) title).1 = Except.ok doc ∧
      doc.size = (img0.width, img0.height) ∧
      (∀ p ∈ doc.pages, p.size = (img0.width, img0.height)) ∧
      doc.pages.length =
        ((u0 :: rest).filter (fun u => (paintedImage fetch u).isSome)).length := by
  refine ⟨⟨(img0.width, img0.height), (pdfLoop fetch (u0 :: rest)).1⟩, ?_, rfl, ?_, ?_⟩
  · simp [create_pdf_from_images, h0]
  · intro p hp
    exact paginate_size_mem (img0.width, img0.height) (pdfLoop fetch (u0 :: rest)).1 [] p hp
  · exact paginate_pdfLoop_length fetch (img0.width, img0.height) (u0 :: rest)

/-- Witness for C4: first URL reachable (5×7 image), second unreachable:
a one-page document sized 5×7, no error. -/
theorem c4_pdf_page_geometry_witness :
    fetchAB "a" = some rgbImg ∧
    ∃ doc : PdfDoc,
      (create_pdf_from_images fetchAB ["a", "x"] "T").1 = Except.ok doc ∧
      doc.size = (5, 7) ∧
      (∀ p ∈ doc.pages, p.size = (5, 7)) ∧
      doc.pages.length = 1 := by
  refine ⟨rfl, ?_⟩
  obtain ⟨doc, h1, h2, h3, h4⟩ :=
    c4_pdf_page_geometry fetchAB "a" ["x"] "T" rgbImg rfl
  refine ⟨doc, h1, h2, h3, ?_⟩
  rw [h4]
  decide

/-- C5 counterexample: for a two-image request whose second image fails
to fetch, the renderer paints only the first image yet still emits
`c.showPage()` after it (the break is skipped only at the last *input*
position), so a page break does follow the last painted image — the
event stream is not the painted images interspersed with breaks. -/
theorem c5_break_after_last_painted_counterexample :
    (pdfLoop fetchAB ["a", "x"]).1 = [PdfEvent.draw rgbImg, PdfEvent.pageBreak] ∧
    (pdfLoop fetchAB ["a", "x"]).1 ≠
      List.intersperse PdfEvent.pageBreak
        ((["a", "x"].filterMap fetchAB).map PdfEvent.draw) := by
  constructor
  · rfl
  · intro hcontra
    have : ([PdfEvent.draw rgbImg, PdfEvent.pageBreak] : List PdfEvent) =
        [PdfEvent.draw rgbImg] := hcontra
    simp at this

/-- C5 amended: a page break follows every painted image (one that both
fetches and survives the JPEG temp-file save — alpha-mode images raise
there and are skipped like fetch failures) except an image painted at
the last input position; trailing failures therefore leave a page break
after the last painted page (the resulting open page is empty and is
dropped when `c.save()` runs). -/
theorem c5_break_except_last_input_position (fetch : Fetch) (images : List String) :
    (pdfLoop fetch images).1 =
      breaksExceptLastPos (images.map (paintedImage fetch)) := by
  induction images with
  | nil => rfl
  | cons u rest ih =>
    cases rest with
    | nil =>
      cases hfu : fetch u with
      | none => simp [pdfLoop, hfu, breaksExceptLastPos, paintedImage]
      | some img =>
        by_cases hw : jpegWritable img.mode = true
        · simp [pdfLoop, hfu, hw, breaksExceptLastPos, paintedImage]
        · simp [pdfLoop, hfu, hw, breaksExceptLastPos, paintedImage]
    | cons v rest2 =>
      cases hfu : fetch u with
      | none =>
        have h1 : (pdfLoop fetch (u :: v :: rest2)).1 = (pdfLoop fetch (v :: rest2)).1 := by
          simp [pdfLoop, hfu]
        have h2 : breaksExceptLastPos ((u :: v :: rest2).map (paintedImage fetch)) =
            breaksExceptLastPos ((v :: rest2).map (paintedImage fetch)) := by
          simp [breaksExceptLastPos, paintedImage, hfu]
        rw [h1, h2, ih]
      | some img =>
        by_cases hw : jpegWritable img.mode = true
        · have h1 : (pdfLoop fetch (u :: v :: rest2)).1 =
              PdfEvent.draw img :: PdfEvent.pageBreak ::
                (pdfLoop fetch (v :: rest2)).1 := by
            simp [pdfLoop, hfu, hw]
          have h2 : breaksExceptLastPos ((u :: v :: rest2).map (paintedImage fetch)) =
              PdfEvent.draw img :: PdfEvent.pageBreak ::
                breaksExceptLastPos ((v :: rest2).map (paintedImage fetch)) := by
            simp [breaksExceptLastPos, paintedImage, hfu, hw]
          rw [h1, h2, ih]
        · have h1 : (pdfLoop fetch (u :: v :: rest2)).1 =
              (pdfLoop fetch (v :: rest2)).1 := by
            simp [pdfLoop, hfu, hw]
          have h2 : breaksExceptLastPos ((u :: v :: rest2).map (paintedImage fetch)) =
              breaksExceptLastPos ((v :: rest2).map (paintedImage fetch)) := by
            simp [breaksExceptLastPos, paintedImage, hfu, hw]
          rw [h1, h2, ih]

theorem zipEntryOf_writable (i : Nat) (image : Img) :
    jpegWritable (zipEntryOf i image).mode = true := by
  rcases image with ⟨m, w, h, px⟩
  cases m <;> simp [zipEntryOf, pasteOnWhite, jpegWritable]

theorem zipLoop_eq (fetch : Fetch) :
    ∀ (images : List String) (i : Nat),
      (zipLoop fetch images i).1 =
        (List.enumFrom i images).filterMap
          (fun p => (fetch p.2).map (zipEntryOf p.1)) := by
  intro images
  induction images with
  | nil => intro i; rfl
  | cons u rest ih =>
    intro i
    cases hfu : fetch u with
    | none => simp [zipLoop, List.enumFrom, hfu, ih]
    | some image =>
      have hw := zipEntryOf_writable i image
      rcases image with ⟨m, w, h, px⟩
      cases m <;>
        simp_all [zipLoop, List.enumFrom, zipEntryOf, pasteOnWhite, jpegWritable, ih]

theorem zipEntries_eq (fetch : Fetch) (images : List String) (title : String) :
    ∃ z : ZipArchive,
      (create_zip_from_images fetch images title).1 = Except.ok z ∧
      z.entries =
        (List.enumFrom 0 images).filterMap
          (fun p => (fetch p.2).map (zipEntryOf p.1)) :=
  ⟨_, rfl, zipLoop_eq fetch images 0⟩

/-- C6: every successfully fetched image becomes a quality-95 JPEG entry
named `slide_NNN.jpg` after its 1-based loop position (zero-padded to
three digits); a skipped image still consumes its ordinal; a two-image
request with both URLs resolving yields exactly the entries
`slide_001.jpg` and `slide_002.jpg`. -/
theorem c6_zip_entry_names (fetch : Fetch) (images : List String) (title : String)
    (a b : String) (ia ib : Img)
    (ha : fetch a = some ia) (hb : fetch b = some ib) :
    (∃ z : ZipArchive,
      (create_zip_from_images fetch images title).1 = Except.ok z ∧
      z.entries.map (fun e => e.name) =
        (List.enumFrom 0 images).filterMap
          (fun p => (fetch p.2).map (fun _ => zipEntryName p.1)) ∧
      ∀ e ∈ z.entries, e.quality = 95) ∧
    (∃ z2 : ZipArchive,
      (create_zip_from_images fetch [a, b] title).1 = Except.ok z2 ∧
      z2.entries.map (fun e => e.name) = ["slide_001.jpg", "slide_002.jpg"]) := by
  constructor
  · obtain ⟨z, hz, hentries⟩ := zipEntries_eq fetch images title
    refine ⟨z, hz, ?_, ?_⟩
    · rw [hentries, List.map_filterMap]
      congr 1
      funext p
      cases fetch p.2 <;> rfl
    · intro e he
      rw [hentries] at he
      rw [List.mem_filterMap] at he
      obtain ⟨p, _, hpe⟩ := he
      cases hp2 : fetch p.2 with
      | none => rw [hp2] at hpe; simp at hpe
      | some img =>
        rw [hp2] at hpe
        simp only [Option.map_some'] at hpe
        rw [← Option.some_inj.mp hpe]
        rfl
  · obtain ⟨z2, hz2, hentries2⟩ := zipEntries_eq fetch [a, b] title
    refine ⟨z2, hz2, ?_⟩
    rw [hentries2]
    simp only [List.enumFrom, List.filterMap, ha, hb, Option.map_some']
    rfl

/-- Witness for C6: both URLs of a two-image request resolve. -/
theorem c6_zip_entry_names_witness :
    fetchAB "a" = some rgbImg ∧ fetchAB "b" = some rgbImg2 ∧
    ∃ z2 : ZipArchive,
      (create_zip_from_images fetchAB ["a", "b"] "T").1 = Except.ok z2 ∧
      z2.entries.map (fun e => e.name) = ["slide_001.jpg", "slide_002.jpg"] :=
  ⟨rfl, rfl,
    (c6_zip_entry_names fetchAB ["a", "b"] "T" "a" "b" rgbImg rgbImg2 rfl rfl).2⟩

/-- C7 counterexample: a fetched LA image (alpha channel present) is
pasted to the white canvas **without** a mask, so its alpha is dropped
instead of being composited: a fully transparent black LA pixel is
written as black, where compositing onto an opaque white background
would give white. -/
theorem c7_la_alpha_dropped_counterexample :
    fetchLA "u" = some laImg ∧
    laImg.mode.hasAlpha = true ∧
    (create_zip_from_images fetchLA ["u"] "T").1 =
      Except.ok ⟨[⟨zipEntryName 0, 95, PMode.RGB, [⟨0, 0, 0, 255⟩]⟩]⟩ ∧
    (compositeOnWhite laImg).pixels = [⟨255, 255, 255, 255⟩] ∧
    ([⟨0, 0, 0, 255⟩] : List Pix) ≠ [⟨255, 255, 255, 255⟩] :=
  ⟨rfl, rfl, rfl, rfl, by decide⟩

theorem mem_enumFrom_of_getElem? {α : Type _} :
    ∀ (l : List α) (n i : Nat) (a : α), l[i]? = some a →
      (n + i, a) ∈ List.enumFrom n l := by
  intro l
  induction l with
  | nil => intro n i a h; simp at h
  | cons x xs ih =>
    intro n i a h
    cases i with
    | zero =>
      simp only [List.getElem?_cons_zero, Option.some_inj] at h
      subst h
      simp [List.enumFrom]
    | succ j =>
      simp only [List.getElem?_cons_succ] at h
      have hmem := ih (n + 1) j a h
      have harith : n + 1 + j = n + (j + 1) := by omega
      rw [harith] at hmem
      simp [List.enumFrom, hmem]

/-- C7 amended: a fetched RGBA image is composited onto an opaque white
background before encoding, but a fetched LA image merely has its alpha
channel dropped (its luminance values fully overwrite the white canvas);
in either case every entry written into the archive has no alpha
channel. -/
theorem c7_alpha_normalization (fetch : Fetch) (images : List String) (title : String) :
    ∃ z : ZipArchive,
      (create_zip_from_images fetch images title).1 = Except.ok z ∧
      (∀ e ∈ z.entries, e.mode.hasAlpha = false) ∧
      (∀ (i : Nat) (u : String) (img : Img), images[i]? = some u →
        fetch u = some img → img.mode = PMode.RGBA →
        ∃ e ∈ z.entries, e.name = zipEntryName i ∧
          e.pixels = (compositeOnWhite img).pixels) ∧
      (∀ (i : Nat) (u : String) (img : Img), images[i]? = some u →
        fetch u = some img → img.mode = PMode.LA →
        ∃ e ∈ z.entries, e.name = zipEntryName i ∧
          e.pixels = img.pixels.map (fun p => ⟨p.r, p.g, p.b, 255⟩)) := by
  obtain ⟨z, hz, hentries⟩ := zipEntries_eq fetch images title
  refine ⟨z, hz, ?_, ?_, ?_⟩
  · intro e he
    rw [hentries, List.mem_filterMap] at he
    obtain ⟨p, _, hpe⟩ := he
    cases hp2 : fetch p.2 with
    | none => rw [hp2] at hpe; simp at hpe
    | some img =>
      rw [hp2] at hpe
      simp only [Option.map_some'] at hpe
      rw [← Option.some_inj.mp hpe]
      rcases img with ⟨m, w, h, px⟩
      cases m <;> simp [zipEntryOf, pasteOnWhite, PMode.hasAlpha]
  · intro i u img hi hu hmode
    refine ⟨zipEntryOf i img, ?_, rfl, ?_⟩
    · rw [hentries, List.mem_filterMap]
      refine ⟨(i, u), ?_, by simp [hu]⟩
      have := mem_enumFrom_of_getElem? images 0 i u hi
      simpa using this
    · rcases img with ⟨m, w, h, px⟩
      cases hmode
      simp [zipEntryOf, pasteOnWhite, compositeOnWhite]
  · intro i u img hi hu hmode
    refine ⟨zipEntryOf i img, ?_, rfl, ?_⟩
    · rw [hentries, List.mem_filterMap]
      refine ⟨(i, u), ?_, by simp [hu]⟩
      have := mem_enumFrom_of_getElem? images 0 i u hi
      simpa using this
    · rcases img with ⟨m, w, h, px⟩
      cases hmode
      simp [zipEntryOf, pasteOnWhite]

/-- C2: an empty `images` list or an unrecognized (lowercased) format
makes `convert` return the structured 400 error before any renderer
runs: the response carries an `{'error': msg}` body, no fetch is traced,
and the result does not depend on the fetch environment at all. -/
theorem c2_validation_rejects (fetch : Fetch) (req : ConvRequest)
    (h : req.images.getD [] = [] ∨
      ¬(lowerStr (req.format.getD "pdf") = "pdf" ∨
        lowerStr (req.format.getD "pdf") = "ppt" ∨
        lowerStr (req.format.getD "pdf") = "zip")) :
    (∃ msg, convert fetch (some req) = (HttpResp.err 400 msg, [])) ∧
    ∀ g : Fetch, convert g (some req) = convert fetch (some req) := by
  by_cases he : (req.images.getD []).isEmpty = true
  · exact ⟨⟨"No images provided", by simp [convert, he]⟩,
      fun g => by simp [convert, he]⟩
  · have hfmt : ¬(lowerStr (req.format.getD "pdf") = "pdf" ∨
        lowerStr (req.format.getD "pdf") = "ppt" ∨
        lowerStr (req.format.getD "pdf") = "zip") := by
      rcases h with h | h
      · exact absurd (by simp [h]) he
      · exact h
    exact ⟨⟨"Invalid format. Must be pdf, ppt, or zip",
        by simp [convert, he, hfmt]⟩,
      fun g => by simp [convert, he, hfmt]⟩

/-- Witness for C2 at an empty `images` list and at a bad format. -/
theorem c2_validation_rejects_witness :
    ((⟨some [], none, none⟩ : ConvRequest).images.getD [] = [] ∨
      ¬(lowerStr ((⟨some [], none, none⟩ : ConvRequest).format.getD "pdf") = "pdf" ∨
        lowerStr ((⟨some [], none, none⟩ : ConvRequest).format.getD "pdf") = "ppt" ∨
        lowerStr ((⟨some [], none, none⟩ : ConvRequest).format.getD "pdf") = "zip")) ∧
    (∃ msg, convert fetchAB (some ⟨some [], none, none⟩) = (HttpResp.err 400 msg, [])) ∧
    ∀ g : Fetch, convert g (some ⟨some [], none, none⟩) =
      convert fetchAB (some ⟨some [], none, none⟩) :=
  ⟨Or.inl rfl, c2_validation_rejects fetchAB ⟨some [], none, none⟩ (Or.inl rfl)⟩

/-- C10: the `format` field is matched case-insensitively — `convert`
lowercases it before validating, so a request whose format lowercases to
`pdf`, `ppt` or `zip` behaves exactly like the same request with the
lowercase format, and is not rejected with a 400 validation error when
the images list is non-empty. -/
theorem c10_format_case_insensitive (fetch : Fetch) (req : ConvRequest) (s : String)
    (hf : req.format = some s)
    (hv : lowerStr s = "pdf" ∨ lowerStr s = "ppt" ∨ lowerStr s = "zip") :
    convert fetch (some req) =
      convert fetch (some ⟨req.images, req.title, some (lowerStr s)⟩) ∧
    (req.images.getD [] ≠ [] →
      ∀ m : String, (convert fetch (some req)).1 ≠ HttpResp.err 400 m) := by
  obtain ⟨imgs, ttl, fmt⟩ := req
  simp only at hf
  subst hf
  have hidem : lowerStr (lowerStr s) = lowerStr s := by
    rcases hv with h | h | h <;> rw [h] <;> rfl
  constructor
  · simp only [convert, Option.getD_some]
    rw [hidem]
  · intro hne m
    have he : (imgs.getD []).isEmpty = false := by
      rcases himgs : imgs.getD [] with _ | ⟨x, xs⟩
      · exact absurd himgs hne
      · rfl
    simp only [convert, Option.getD_some, he, Bool.false_eq_true, if_false]
    rw [if_neg (not_not_intro hv)]
    rcases hv with h | h | h <;> rw [h]
    · simp only [if_pos]
      rcases hpdf : create_pdf_from_images fetch (imgs.getD [])
          (ttl.getD "Presentation") with ⟨res, tr⟩
      cases res <;> simp
    · rw [if_neg (by decide : ¬("ppt" : String) = "pdf"), if_pos rfl]
      rcases hppt : create_ppt_from_images fetch (imgs.getD [])
          (ttl.getD "Presentation") with ⟨res, tr⟩
      cases res <;> simp
    · rw [if_neg (by decide : ¬("zip" : String) = "pdf"),
        if_neg (by decide : ¬("zip" : String) = "ppt")]
      rcases hzip : create_zip_from_images fetch (imgs.getD [])
          (ttl.getD "Presentation") with ⟨res, tr⟩
      cases res <;> simp

/-- Witness for C10: format `"PDF"` behaves like `"pdf"` and is not
rejected. -/
theorem c10_format_case_insensitive_witness :
    (⟨some ["x"], none, some "PDF"⟩ : ConvRequest).format = some "PDF" ∧
    lowerStr "PDF" = "pdf" ∧
    (convert fetchNone (some ⟨some ["x"], none, some "PDF"⟩) =
      convert fetchNone (some ⟨some ["x"], none, some (lowerStr "PDF")⟩) ∧
    ((⟨some ["x"], none, some "PDF"⟩ : ConvRequest).images.getD [] ≠ [] →
      ∀ m : String,
        (convert fetchNone (some ⟨some ["x"], none, some "PDF"⟩)).1 ≠
          HttpResp.err 400 m)) :=
  ⟨rfl, rfl,
    c10_format_case_insensitive fetchNone ⟨some ["x"], none, some "PDF"⟩ "PDF"
      rfl (Or.inl rfl)⟩

theorem releaseItem_files_subset (env : SweepEnv) (st : Store) (it : CleanupItem) :
    (releaseItem env st it).files ⊆ st.files := by
  rcases it with ⟨res, c⟩
  cases res with
  | file p =>
    simp only [releaseItem]
    by_cases hp : p ∈ st.files
    · rw [if_pos hp]
      by_cases hu : env.unlinkOk p
      · rw [if_pos hu]; exact List.erase_subset _ _
      · rw [if_neg hu]; exact fun x hx => hx
    · rw [if_neg hp]; exact fun x hx => hx
  | buffer b => exact fun x hx => hx

theorem releaseItem_files_nodup (env : SweepEnv) (st : Store) (it : CleanupItem)
    (h : st.files.Nodup) : (releaseItem env st it).files.Nodup := by
  rcases it with ⟨res, c⟩
  cases res with
  | file p =>
    simp only [releaseItem]
    by_cases hp : p ∈ st.files
    · rw [if_pos hp]
      by_cases hu : env.unlinkOk p
      · rw [if_pos hu]; exact h.erase p
      · rw [if_neg hu]; exact h
    · rw [if_neg hp]; exact h
  | buffer b => exact h

theorem releaseItem_closed_subset (env : SweepEnv) (st : Store) (it : CleanupItem) :
    st.closed ⊆ (releaseItem env st it).closed := by
  rcases it with ⟨res, c⟩
  cases res with
  | file p =>
    simp only [releaseItem]
    by_cases hp : p ∈ st.files
    · rw [if_pos hp]
      by_cases hu : env.unlinkOk p
      · rw [if_pos hu]; exact fun x hx => hx
      · rw [if_neg hu]; exact fun x hx => hx
    · rw [if_neg hp]; exact fun x hx => hx
  | buffer b => exact fun x hx => List.mem_cons_of_mem b hx

theorem releasedIn_releaseItem_mono (env : SweepEnv) (res : RHandle) (st : Store)
    (it : CleanupItem) (h : releasedIn env res st) :
    releasedIn env res (releaseItem env st it) := by
  cases res with
  | file p =>
    intro hu hmem
    exact h hu (releaseItem_files_subset env st it hmem)
  | buffer b => exact releaseItem_closed_subset env st it h

theorem releasedIn_foldl_mono (env : SweepEnv) (res : RHandle) :
    ∀ (items : List CleanupItem) (st : Store), releasedIn env res st →
      releasedIn env res (items.foldl (releaseItem env) st) := by
  intro items
  induction items with
  | nil => intro st h; exact h
  | cons x xs ih =>
    intro st h
    exact ih (releaseItem env st x) (releasedIn_releaseItem_mono env res st x h)

theorem foldl_release_files_nodup (env : SweepEnv) :
    ∀ (items : List CleanupItem) (st : Store), st.files.Nodup →
      (items.foldl (releaseItem env) st).files.Nodup := by
  intro items
  induction items with
  | nil => intro st h; exact h
  | cons x xs ih =>
    intro st h
    exact ih (releaseItem env st x) (releaseItem_files_nodup env st x h)

theorem releasedIn_releaseItem_self (env : SweepEnv) (st : Store) (it : CleanupItem)
    (h : st.files.Nodup) : releasedIn env it.res (releaseItem env st it) := by
  rcases it with ⟨res, c⟩
  cases res with
  | file p =>
    intro hu hmem
    simp only [releaseItem] at hmem
    by_cases hp : p ∈ st.files
    · rw [if_pos hp, if_pos hu] at hmem
      exact absurd hmem (h.not_mem_erase)
    · rw [if_neg hp] at hmem
      exact hp hmem
  | buffer b => exact List.mem_cons_self b st.closed

theorem releasedIn_foldl_self (env : SweepEnv) (it : CleanupItem) :
    ∀ (items : List CleanupItem) (st : Store), it ∈ items → st.files.Nodup →
      releasedIn env it.res (items.foldl (releaseItem env) st) := by
  intro items
  induction items with
  | nil => intro st h; exact absurd h (List.not_mem_nil it)
  | cons x xs ih =>
    intro st hmem hnd
    rcases List.mem_cons.mp hmem with heq | htail
    · subst heq
      exact releasedIn_foldl_mono env it.res xs (releaseItem env st it)
        (releasedIn_releaseItem_self env st it hnd)
    · exact ih (releaseItem env st x) htail (releaseItem_files_nodup env st x hnd)

theorem sweepOnce_not_mem_of_stale (env : SweepEnv) (now : Nat) (q : List CleanupItem)
    (st : Store) (it : CleanupItem) (helig : 300 < now - it.created) :
    it ∉ (sweepOnce env now (q, st)).1 := by
  intro hmem
  simp only [sweepOnce, List.mem_filter] at hmem
  rcases hmem with ⟨_, hkeep⟩
  rw [Bool.not_eq_eq_eq_not, Bool.not_true, decide_eq_false_iff_not] at hkeep
  exact hkeep helig

theorem sweepOnce_not_mem_mono (env : SweepEnv) (now : Nat) (q : List CleanupItem)
    (st : Store) (it : CleanupItem) (h : it ∉ q) :
    it ∉ (sweepOnce env now (q, st)).1 := by
  intro hmem
  simp only [sweepOnce, List.mem_filter] at hmem
  exact h hmem.1

theorem sweepOnce_mem_of_fresh (env : SweepEnv) (now : Nat) (q : List CleanupItem)
    (st : Store) (it : CleanupItem) (hmem : it ∈ q) (hfresh : ¬300 < now - it.created) :
    it ∈ (sweepOnce env now (q, st)).1 := by
  simp only [sweepOnce, List.mem_filter]
  refine ⟨hmem, ?_⟩
  rw [Bool.not_eq_eq_eq_not, Bool.not_true, decide_eq_false_iff_not]
  exact hfresh

theorem sweepOnce_releases_stale (env : SweepEnv) (now : Nat) (q : List CleanupItem)
    (st : Store) (it : CleanupItem) (hmem : it ∈ q) (helig : 300 < now - it.created)
    (hnd : st.files.Nodup) :
    releasedIn env it.res (sweepOnce env now (q, st)).2 := by
  apply releasedIn_foldl_self
  · rw [List.mem_filter]
    exact ⟨hmem, decide_eq_true helig⟩
  · exact hnd

theorem sweepOnce_releasedIn_mono (env : SweepEnv) (now : Nat) (q : List CleanupItem)
    (st : Store) (res : RHandle) (h : releasedIn env res st) :
    releasedIn env res (sweepOnce env now (q, st)).2 :=
  releasedIn_foldl_mono env res _ st h

theorem sweepOnce_files_nodup (env : SweepEnv) (now : Nat) (q : List CleanupItem)
    (st : Store) (hnd : st.files.Nodup) :
    (sweepOnce env now (q, st)).2.files.Nodup :=
  foldl_release_files_nodup env _ st hnd

theorem runSweeps_not_mem_mono (env : SweepEnv) (it : CleanupItem) :
    ∀ (ws : List Nat) (q : List CleanupItem) (st : Store), it ∉ q →
      it ∉ (runSweeps env ws (q, st)).1 := by
  intro ws
  induction ws with
  | nil => intro q st h; exact h
  | cons w ws2 ih =>
    intro q st h
    have hstep := sweepOnce_not_mem_mono env w q st it h
    simp only [runSweeps]
    rcases hsw : sweepOnce env w (q, st) with ⟨q1, st1⟩
    rw [hsw] at hstep
    exact ih q1 st1 hstep

theorem runSweeps_releasedIn_mono (env : SweepEnv) (res : RHandle) :
    ∀ (ws : List Nat) (q : List CleanupItem) (st : Store), releasedIn env res st →
      releasedIn env res (runSweeps env ws (q, st)).2 := by
  intro ws
  induction ws with
  | nil => intro q st h; exact h
  | cons w ws2 ih =>
    intro q st h
    have hstep := sweepOnce_releasedIn_mono env w q st res h
    simp only [runSweeps]
    rcases hsw : sweepOnce env w (q, st) with ⟨q1, st1⟩
    rw [hsw] at hstep
    exact ih q1 st1 hstep

theorem runSweeps_reclaims (env : SweepEnv) (it : CleanupItem) :
    ∀ (ws : List Nat) (q : List CleanupItem) (st : Store), it ∈ q →
      st.files.Nodup → (∃ w ∈ ws, 300 < w - it.created) →
      it ∉ (runSweeps env ws (q, st)).1 ∧
        releasedIn env it.res (runSweeps env ws (q, st)).2 := by
  intro ws
  induction ws with
  | nil =>
    intro q st _ _ hex
    rcases hex with ⟨w, hw, _⟩
    exact absurd hw (List.not_mem_nil w)
  | cons w ws2 ih =>
    intro q st hmem hnd hex
    by_cases helig : 300 < w - it.created
    · have h1 := sweepOnce_not_mem_of_stale env w q st it helig
      have h2 := sweepOnce_releases_stale env w q st it hmem helig hnd
      simp only [runSweeps]
      rcases hsw : sweepOnce env w (q, st) with ⟨q1, st1⟩
      rw [hsw] at h1 h2
      exact ⟨runSweeps_not_mem_mono env it ws2 q1 st1 h1,
        runSweeps_releasedIn_mono env it.res ws2 q1 st1 h2⟩
    · have h1 := sweepOnce_mem_of_fresh env w q st it hmem helig
      have h2 := sweepOnce_files_nodup env w q st hnd
      have hex2 : ∃ w2 ∈ ws2, 300 < w2 - it.created := by
        rcases hex with ⟨w2, hw2, helig2⟩
        rcases List.mem_cons.mp hw2 with heq | htail
        · subst heq; exact absurd helig2 helig
        · exact ⟨w2, htail, helig2⟩
      simp only [runSweeps]
      rcases hsw : sweepOnce env w (q, st) with ⟨q1, st1⟩
      rw [hsw] at h1 h2
      exact ih q1 st1 h1 h2 hex2

/-- C9: a resource registered with `schedule_cleanup` at time `T` is
gone from the cleanup queue — and its storage reclaimed where releasing
can succeed — once the sweeper (waking every 60 s, releasing entries
strictly older than 300 s) has processed its wake-ups through
`T + 300 + 60`; every wake time considered lies within `T + 360`.  The
entry is removed from the queue even when `os.unlink` fails on it. -/
theorem c9_sweeper_reclaims (env : SweepEnv) (q : List CleanupItem) (st : Store)
    (res : RHandle) (T : Nat) (hnodup : st.files.Nodup) :
    (∀ w ∈ (List.range (T / 60 + 7)).map (fun j => 60 * j), w ≤ T + 360) ∧
    (⟨res, T⟩ : CleanupItem) ∉
      (runSweeps env ((List.range (T / 60 + 7)).map (fun j => 60 * j))
        (schedule_cleanup q res T, st)).1 ∧
    releasedIn env res
      (runSweeps env ((List.range (T / 60 + 7)).map (fun j => 60 * j))
        (schedule_cleanup q res T, st)).2 := by
  have hdm := Nat.div_add_mod T 60
  have hlt : T % 60 < 60 := Nat.mod_lt T (by omega)
  refine ⟨?_, ?_⟩
  · intro w hw
    rcases List.mem_map.mp hw with ⟨j, hj, hwj⟩
    rw [List.mem_range] at hj
    omega
  · have hmem : (⟨res, T⟩ : CleanupItem) ∈ schedule_cleanup q res T := by
      simp [schedule_cleanup]
    have hex : ∃ w ∈ (List.range (T / 60 + 7)).map (fun j => 60 * j),
        300 < w - (⟨res, T⟩ : CleanupItem).created := by
      refine ⟨60 * (T / 60 + 6), ?_, ?_⟩
      · exact List.mem_map.mpr ⟨T / 60 + 6, List.mem_range.mpr (by omega), rfl⟩
      · simp only []
        omega
    exact runSweeps_reclaims env ⟨res, T⟩ _ (schedule_cleanup q res T) st hmem
      hnodup hex

/-- Witness for C9: a file resource registered at `T = 10` with a
working `os.unlink`: after the sweeps the entry is out of the queue and
the file is off the disk. -/
theorem c9_sweeper_reclaims_witness :
    (⟨["/t/x"], []⟩ : Store).files.Nodup ∧
    ((∀ w ∈ (List.range (10 / 60 + 7)).map (fun j => 60 * j), w ≤ 10 + 360) ∧
    (⟨RHandle.file "/t/x", 10⟩ : CleanupItem) ∉
      (runSweeps ⟨fun _ => true⟩ ((List.range (10 / 60 + 7)).map (fun j => 60 * j))
        (schedule_cleanup [] (RHandle.file "/t/x") 10, ⟨["/t/x"], []⟩)).1 ∧
    releasedIn ⟨fun _ => true⟩ (RHandle.file "/t/x")
      (runSweeps ⟨fun _ => true⟩ ((List.range (10 / 60 + 7)).map (fun j => 60 * j))
        (schedule_cleanup [] (RHandle.file "/t/x") 10, ⟨["/t/x"], []⟩)).2) :=
  ⟨by decide,
    c9_sweeper_reclaims ⟨fun _ => true⟩ [] ⟨["/t/x"], []⟩ (RHandle.file "/t/x") 10
      (by decide)⟩

end SlideConvert
